import Mathlib

/-!
Shallow embedding of the Local_AI_Agent_01 repository (src/main.py and
src/vector.py) together with proofs about its context formatter, its
document builder, its tabular loader and its idempotency guard.

Python strings are modelled as `List Char`; Python's `len`, slicing,
`strip`/`rstrip`, `replace("\n", " ")` and `"\n".join` are embedded as
executable functions on `List Char`.
-/

namespace LocalAIAgent

/-- Python strings, modelled as lists of characters (so `len` is
`List.length` and slicing is `List.take`). -/
abbrev Str := List Char

/-- Whitespace recognised by Python's `str.strip()` / `str.rstrip()`,
restricted to the ASCII whitespace characters (space, tab, newline,
carriage return, vertical tab, form feed), which are the only whitespace
characters this program's data paths produce. -/
def isPySpace (c : Char) : Bool :=
  c = ' ' || c = '\t' || c = '\n' || c = '\r' || c = '\x0b' || c = '\x0c'

/-- Python `s.lstrip()`: drop leading whitespace. -/
def pyLstrip (s : Str) : Str := s.dropWhile isPySpace

/-- Python `s.rstrip()`: drop trailing whitespace. -/
def pyRstrip (s : Str) : Str := (s.reverse.dropWhile isPySpace).reverse

/-- Python `s.strip()`: drop leading and trailing whitespace. -/
def pyStrip (s : Str) : Str := pyRstrip (pyLstrip s)

/-- Python `s.replace("\n", " ")`: every newline becomes a space. -/
def replaceNl (s : Str) : Str := s.map (fun c => if c = '\n' then ' ' else c)

/-- The ellipsis character appended by the snippet truncation
(`snippet[:400].rstrip() + "…"` in `_format_reviews_for_prompt`). -/
def ELLIPSIS : Char := '…'

/-- The first snippet step of `_format_reviews_for_prompt`
(src/main.py line 74): `content.strip().replace("\n", " ")`. -/
def cleanContent (content : Str) : Str := replaceNl (pyStrip content)

/-- The snippet construction of `_format_reviews_for_prompt`
(src/main.py lines 74-76): `content.strip().replace("\n", " ")`, then a
hard 400-character cutoff with `rstrip` and an ellipsis when it is longer
than 400 characters. -/
def mkSnippet (content : Str) : Str :=
  if 400 < (cleanContent content).length then
    pyRstrip ((cleanContent content).take 400) ++ [ELLIPSIS]
  else cleanContent content

/-- The ASCII digit character for `d` (only applied at `d ≤ 9`). -/
def digitChar (d : Nat) : Char :=
  match d with
  | 0 => '0' | 1 => '1' | 2 => '2' | 3 => '3' | 4 => '4'
  | 5 => '5' | 6 => '6' | 7 => '7' | 8 => '8' | _ => '9'

/-- Decimal rendering of a natural number, fuelled so the recursion is
structural; `fuel` bounds the number of digits produced. -/
def natStrGo (fuel n : Nat) : Str :=
  match fuel with
  | 0 => []
  | fuel + 1 =>
    if n < 10 then [digitChar n]
    else natStrGo fuel (n / 10) ++ [digitChar (n % 10)]

/-- Python `str(n)` for a non-negative integer `n`: its decimal digits
(`n + 1` units of fuel always suffice, since `n` has at most `n + 1`
digits). -/
def natStr (n : Nat) : Str := natStrGo (n + 1) n

/-- The line header `"- Review #{idx}: "` of src/main.py line 77. -/
def lineHeader (idx : Nat) : Str :=
  "- Review #".data ++ natStr idx ++ ": ".data

/-- One rendered line `"- Review #{idx}: {snippet}"`. -/
def mkLine (idx : Nat) (content : Str) : Str :=
  lineHeader idx ++ mkSnippet content

/-- An element of the list handed to `_format_reviews_for_prompt`:
either a LangChain document carrying `page_content`, or any other value,
for which `getattr(d, "page_content", str(d))` falls back to its string
representation (src/main.py line 72). -/
inductive PromptElem where
  | doc (page_content : Str)
  | other (strRepr : Str)
deriving DecidableEq

/-- The content `getattr(d, "page_content", str(d))` extracted from a
prompt element. -/
def elemContent : PromptElem → Str
  | .doc s => s
  | .other s => s

/-- The loop of src/main.py lines 70-77: one line per element, indices
counted from `idx` (the loop uses `enumerate(docs, start=1)`). -/
def buildLinesFrom (idx : Nat) : List PromptElem → List Str
  | [] => []
  | d :: ds => mkLine idx (elemContent d) :: buildLinesFrom (idx + 1) ds

/-- All rendered lines, 1-indexed as in the source. -/
def buildLines (docs : List PromptElem) : List Str := buildLinesFrom 1 docs

/-- Python `"\n".join(lines)` (src/main.py line 80). -/
def joinNl : List Str → Str
  | [] => []
  | [l] => l
  | l :: l' :: ls => l ++ '\n' :: joinNl (l' :: ls)

/-- The truncation marker `"\n… (truncated)"` of src/main.py line 84. -/
def TRUNC_MARKER : Str := '\n' :: "… (truncated)".data

/-- The sentinel returned for an empty document list
(src/main.py line 66). -/
def NO_MATCH_SENTINEL : Str :=
  "No matching reviews were found for this question.".data

/-- The default of the `max_chars` parameter (src/main.py line 56). -/
def DEFAULT_MAX_CHARS : Nat := 1800

/-- Embedding of `_format_reviews_for_prompt` (src/main.py lines 56-86):
sentinel for the empty list; otherwise one line per document joined with
newlines, with a hard `max_chars` cutoff (`rstrip` plus marker) when the
joined block is longer than `max_chars`. -/
def format_reviews_for_prompt (docs : List PromptElem) (maxChars : Nat) : Str :=
  match docs with
  | [] => NO_MATCH_SENTINEL
  | _ :: _ =>
    let joined := joinNl (buildLines docs)
    if maxChars < joined.length then
      pyRstrip (joined.take maxChars) ++ TRUNC_MARKER
    else joined

/-- Splitting a string at newline characters (Python `s.split("\n")`);
used to state the line-structure claim about the formatter's output. -/
def splitOnNl : Str → List Str
  | [] => [[]]
  | c :: cs =>
    match splitOnNl cs with
    | [] => [[]]
    | l :: ls => if c = '\n' then [] :: l :: ls else (c :: l) :: ls

/-- A raw input row of the tabular source (src/vector.py): the `Title` and
`Review` cells may be missing (`none` models a NaN cell, filled by
`fillna("")`); `Rating` and `Date` cells are kept as opaque strings. -/
structure RawRow where
  title? : Option Str
  review? : Option Str
  rating : Str
  date : Str
deriving DecidableEq

/-- A row after `fillna("")` on `Title` and `Review`. -/
structure Record where
  title : Str
  review : Str
  rating : Str
  date : Str
deriving DecidableEq

/-- The tabular source as seen by `_load_dataframe` (src/vector.py lines
34-65): whether the file is present, its column names, and its rows. -/
structure CsvSource where
  present : Bool
  columns : List Str
  rows : List RawRow
deriving DecidableEq

/-- The two fatal errors of `_load_dataframe`: the `FileNotFoundError`
for an absent CSV, and the `ValueError` whose message lists the sorted
missing required columns. -/
inductive LoadError where
  | fileNotFound
  | missingColumns (missing : List Str)
deriving DecidableEq

/-- The required columns `{"Title", "Review", "Rating", "Date"}` of
src/vector.py line 52, listed in Python `sorted` order, as used by the
error message's `sorted(missing)`. -/
def requiredColsSorted : List Str :=
  ["Date".data, "Rating".data, "Review".data, "Title".data]

/-- The sorted list of required columns absent from `cols`
(`sorted(required_cols.difference(df.columns))`). -/
def missingCols (cols : List Str) : List Str :=
  requiredColsSorted.filter (fun c => decide (c ∉ cols))

/-- The `fillna("")` step of src/vector.py lines 62-63: missing `Title`
and `Review` cells become the empty string. -/
def fillnaRow (r : RawRow) : Record :=
  { title := r.title?.getD [], review := r.review?.getD [],
    rating := r.rating, date := r.date }

/-- Embedding of `_load_dataframe` (src/vector.py lines 34-65): fail with
`fileNotFound` when the file is absent, fail with the sorted list of
missing required columns when any is absent, otherwise return the rows
with missing `Title`/`Review` cells replaced by the empty string. -/
def load_dataframe (src : CsvSource) : Except LoadError (List Record) :=
  if src.present = false then .error .fileNotFound
  else if missingCols src.columns = [] then .ok (src.rows.map fillnaRow)
  else .error (.missingColumns (missingCols src.columns))

/-- Metadata attached to one document (src/vector.py lines 83-87). -/
structure DocMetadata where
  rating : Str
  date : Str
  source_row : Nat
deriving DecidableEq

/-- A LangChain document as built by `_build_documents`. -/
structure Document where
  page_content : Str
  metadata : DocMetadata
deriving DecidableEq

/-- The document built for row `i` (src/vector.py lines 78-93):
content `f"{Title} {Review}".strip()` and metadata
`{rating, date, source_row: i}`. -/
def recordToDoc (i : Nat) (r : Record) : Document :=
  { page_content := pyStrip (r.title ++ ' ' :: r.review),
    metadata := { rating := r.rating, date := r.date, source_row := i } }

/-- The loop of `_build_documents` starting at row index `i`: appends one
document and one id (`str(i)`) per record. -/
def buildDocumentsFrom (i : Nat) : List Record → List Document × List Str
  | [] => ([], [])
  | r :: rs =>
    let rest := buildDocumentsFrom (i + 1) rs
    (recordToDoc i r :: rest.1, natStr i :: rest.2)

/-- Embedding of `_build_documents` (src/vector.py lines 68-95): one
document and one id per row, row indices counted from 0. -/
def build_documents (records : List Record) : List Document × List Str :=
  buildDocumentsFrom 0 records

/-- State of the persistent Chroma store location: whether the directory
exists on disk, and how many entries the collection holds. -/
structure StoreState where
  dirPresent : Bool
  count : Nat
deriving DecidableEq

/-- Embedding of `_should_add_documents` (src/vector.py lines 98-104):
add documents only when the persistent directory does not yet exist. -/
def should_add_documents (s : StoreState) : Bool := !s.dirPresent

/-- One run of the module-level indexing block of src/vector.py lines
111-130 over the persistent store: documents are added exactly when
`_should_add_documents` holds, and opening/persisting the Chroma store
leaves the persistent directory in existence afterwards. -/
def runIndexer (s : StoreState) (docs : List Document) : StoreState :=
  if should_add_documents s then
    { dirPresent := true, count := s.count + docs.length }
  else { s with dirPresent := true }

/-- A placeholder record used only as a `getD` default in statements. -/
def emptyRecord : Record := { title := [], review := [], rating := [], date := [] }

/-- A concrete absent tabular source, used by the loader witness. -/
def srcAbsent : CsvSource := { present := false, columns := [], rows := [] }

/-- A concrete present source missing the `Review` and `Title` columns. -/
def srcMissingTwo : CsvSource :=
  { present := true, columns := ["Date".data, "Rating".data], rows := [] }

/-- A concrete complete source with one row whose `Title` cell is missing. -/
def srcComplete : CsvSource :=
  { present := true, columns := requiredColsSorted,
    rows := [{ title? := none, review? := some "B".data, rating := "5".data, date := "d".data }] }

/-- A placeholder document used only as a `getD` default in statements. -/
def emptyDocument : Document := recordToDoc 0 emptyRecord

example : natStr 10 = ['1', '0'] := by decide

example : mkSnippet [' ', 'a', '\n', 'b', ' '] = ['a', ' ', 'b'] := by decide

example :
    format_reviews_for_prompt [.doc ['h', 'i']] 1800 =
      "- Review #1: hi".data := by decide

example :
    format_reviews_for_prompt [.doc ['a', 'b', 'c', 'd']] 10 =
      '-' :: ' ' :: 'R' :: 'e' :: 'v' :: 'i' :: 'e' :: 'w' :: ' ' :: '#' ::
        TRUNC_MARKER := by
  decide

set_option maxRecDepth 40000 in
/-- Counterexample to claim C1 as stated: ten documents of 186 `'a'`s
give a joined block of 2000 characters; its 1800-character cut ends at a
newline, which `rstrip` removes, so the output has 1813 characters, not
`1800 + 14 = 1814`. -/
theorem C1_cex :
    (List.replicate 10 (PromptElem.doc (List.replicate 186 'a'))) ≠ [] ∧
    DEFAULT_MAX_CHARS <
      (joinNl (buildLines (List.replicate 10 (PromptElem.doc (List.replicate 186 'a'))))).length ∧
    (format_reviews_for_prompt (List.replicate 10 (PromptElem.doc (List.replicate 186 'a')))
        DEFAULT_MAX_CHARS).length ≠
      DEFAULT_MAX_CHARS + TRUNC_MARKER.length := by
  decide

/-- Counterexample to claim C4 as stated: two four-character documents
formatted with `max_chars = 20` overflow the limit, and the truncated
output splits into three newline-separated lines, not two. -/
theorem C4_cex :
    ([PromptElem.doc ['a', 'a', 'a', 'a'], PromptElem.doc ['b', 'b', 'b', 'b']] ≠
      ([] : List PromptElem)) ∧
    (splitOnNl (format_reviews_for_prompt
        [.doc ['a', 'a', 'a', 'a'], .doc ['b', 'b', 'b', 'b']] 20)).length ≠
      ([PromptElem.doc ['a', 'a', 'a', 'a'], PromptElem.doc ['b', 'b', 'b', 'b']]).length := by
  decide

/-! Helper lemmas about the string primitives. -/

theorem length_dropWhile_le (p : Char → Bool) : ∀ s : Str, (s.dropWhile p).length ≤ s.length
  | [] => Nat.le_refl _
  | c :: s => by
    rw [List.dropWhile_cons]
    split
    · exact Nat.le_trans (length_dropWhile_le p s) (Nat.le_succ _)
    · exact Nat.le_refl _

theorem mem_dropWhile (p : Char → Bool) (a : Char) :
    ∀ s : Str, a ∈ s.dropWhile p → a ∈ s
  | [], h => h
  | c :: s, h => by
    rw [List.dropWhile_cons] at h
    split at h
    · exact List.mem_cons_of_mem _ (mem_dropWhile p a s h)
    · exact h

theorem length_pyRstrip_le (s : Str) : (pyRstrip s).length ≤ s.length := by
  simpa [pyRstrip] using length_dropWhile_le isPySpace s.reverse

theorem mem_pyRstrip (a : Char) (s : Str) (h : a ∈ pyRstrip s) : a ∈ s := by
  rw [pyRstrip, List.mem_reverse] at h
  exact List.mem_reverse.1 (mem_dropWhile isPySpace a s.reverse h)

theorem pyRstrip_append_neg (s : Str) (c : Char) (hc : isPySpace c = false) :
    pyRstrip (s ++ [c]) = s ++ [c] := by
  simp [pyRstrip, List.reverse_append, List.dropWhile_cons, hc]

theorem length_pyStrip_le (s : Str) : (pyStrip s).length ≤ s.length :=
  Nat.le_trans (length_pyRstrip_le _)
    (by simpa [pyLstrip] using length_dropWhile_le isPySpace s)

theorem length_replaceNl (s : Str) : (replaceNl s).length = s.length :=
  List.length_map s _

theorem nl_not_mem_replaceNl (s : Str) : '\n' ∉ replaceNl s := by
  intro h
  rcases List.mem_map.1 h with ⟨a, _, ha⟩
  by_cases h' : a = '\n'
  · rw [if_pos h'] at ha
    exact absurd ha (by decide)
  · rw [if_neg h'] at ha
    exact h' ha

theorem length_cleanContent_le (content : Str) :
    (cleanContent content).length ≤ content.length := by
  rw [cleanContent, length_replaceNl]
  exact length_pyStrip_le content

theorem nl_not_mem_mkSnippet (content : Str) : '\n' ∉ mkSnippet content := by
  rw [mkSnippet]
  split
  · intro h
    rcases List.mem_append.1 h with h | h
    · exact nl_not_mem_replaceNl _ (List.take_subset _ _ (mem_pyRstrip _ _ h))
    · exact absurd (List.mem_singleton.1 h) (by decide)
  · exact nl_not_mem_replaceNl _

theorem digitChar_ne_nl : ∀ d : Nat, digitChar d ≠ '\n'
  | 0 | 1 | 2 | 3 | 4 | 5 | 6 | 7 | 8 => by decide
  | _ + 9 => by
    show ('9' : Char) ≠ '\n'
    decide

theorem nl_not_mem_natStrGo : ∀ fuel n : Nat, '\n' ∉ natStrGo fuel n
  | 0, _ => List.not_mem_nil _
  | fuel + 1, n => by
    rw [natStrGo]
    split
    · intro h
      exact digitChar_ne_nl n (List.mem_singleton.1 h).symm
    · intro h
      rcases List.mem_append.1 h with h | h
      · exact nl_not_mem_natStrGo fuel (n / 10) h
      · exact digitChar_ne_nl _ (List.mem_singleton.1 h).symm

theorem nl_not_mem_natStr (n : Nat) : '\n' ∉ natStr n :=
  nl_not_mem_natStrGo _ _

theorem nl_not_mem_lineHeader (idx : Nat) : '\n' ∉ lineHeader idx := by
  intro h
  rcases List.mem_append.1 h with h | h
  · rcases List.mem_append.1 h with h | h
    · exact absurd h (by decide)
    · exact nl_not_mem_natStr _ h
  · exact absurd h (by decide)

theorem nl_not_mem_mkLine (idx : Nat) (content : Str) : '\n' ∉ mkLine idx content := by
  intro h
  rcases List.mem_append.1 h with h | h
  · exact nl_not_mem_lineHeader _ h
  · exact nl_not_mem_mkSnippet _ h

theorem nl_not_mem_buildLinesFrom :
    ∀ (k : Nat) (ds : List PromptElem) (l : Str), l ∈ buildLinesFrom k ds → '\n' ∉ l
  | _, [], _, h => absurd h (List.not_mem_nil _)
  | k, d :: ds, l, h => by
    rw [buildLinesFrom] at h
    rcases List.mem_cons.1 h with h | h
    · rw [h]
      exact nl_not_mem_mkLine _ _
    · exact nl_not_mem_buildLinesFrom (k + 1) ds l h

theorem length_buildLinesFrom :
    ∀ (k : Nat) (ds : List PromptElem), (buildLinesFrom k ds).length = ds.length
  | _, [] => rfl
  | k, _ :: ds => by
    rw [buildLinesFrom, List.length_cons, List.length_cons,
      length_buildLinesFrom (k + 1) ds]

theorem buildLinesFrom_getD :
    ∀ (k i : Nat) (ds : List PromptElem), i < ds.length →
      (buildLinesFrom k ds).getD i [] =
        mkLine (k + i) (elemContent (ds.getD i (.doc [])))
  | _, _, [], h => absurd h (by simp)
  | k, 0, d :: ds, _ => by
    rw [buildLinesFrom, List.getD_cons_zero, List.getD_cons_zero, Nat.add_zero]
  | k, i + 1, d :: ds, h => by
    rw [buildLinesFrom, List.getD_cons_succ, List.getD_cons_succ,
      buildLinesFrom_getD (k + 1) i ds (Nat.lt_of_succ_lt_succ h)]
    have : k + 1 + i = k + (i + 1) := by omega
    rw [this]

/-! Helper lemmas about `splitOnNl` and `joinNl`. -/

theorem splitOnNl_ne_nil (s : Str) : splitOnNl s ≠ [] := by
  induction s with
  | nil => simp [splitOnNl]
  | cons c cs ih =>
    rw [splitOnNl]
    rcases h : splitOnNl cs with _ | ⟨l, ls⟩
    · exact absurd h ih
    · dsimp only
      split <;> simp

theorem splitOnNl_of_not_mem (s : Str) (h : '\n' ∉ s) : splitOnNl s = [s] := by
  induction s with
  | nil => rfl
  | cons c cs ih =>
    have hc : c ≠ '\n' := fun e => h (List.mem_cons.2 (Or.inl e.symm))
    have hcs : '\n' ∉ cs := fun m => h (List.mem_cons_of_mem _ m)
    rw [splitOnNl, ih hcs]
    simp [hc]

theorem splitOnNl_append (l r : Str) (h : '\n' ∉ l) :
    splitOnNl (l ++ '\n' :: r) = l :: splitOnNl r := by
  induction l with
  | nil =>
    rw [List.nil_append, splitOnNl]
    rcases hr : splitOnNl r with _ | ⟨x, xs⟩
    · exact absurd hr (splitOnNl_ne_nil r)
    · simp
  | cons c l ih =>
    have hc : c ≠ '\n' := fun e => h (List.mem_cons.2 (Or.inl e.symm))
    have hl : '\n' ∉ l := fun m => h (List.mem_cons_of_mem _ m)
    rw [List.cons_append, splitOnNl, ih hl]
    simp [hc]

theorem splitOnNl_joinNl :
    ∀ ls : List Str, ls ≠ [] → (∀ l ∈ ls, '\n' ∉ l) → splitOnNl (joinNl ls) = ls
  | [], h, _ => absurd rfl h
  | [l], _, h => by
    rw [joinNl]
    exact splitOnNl_of_not_mem l (h l (List.mem_singleton.2 rfl))
  | l :: l' :: ls, _, h => by
    rw [joinNl, splitOnNl_append _ _ (h l (List.mem_cons_self _ _)),
      splitOnNl_joinNl (l' :: ls) (by simp) (fun x hx => h x (List.mem_cons_of_mem _ hx))]

/-- Unfolding of the formatter on a non-empty list. -/
theorem format_cons (d : PromptElem) (ds : List PromptElem) (maxChars : Nat) :
    format_reviews_for_prompt (d :: ds) maxChars =
      if maxChars < (joinNl (buildLines (d :: ds))).length then
        pyRstrip ((joinNl (buildLines (d :: ds))).take maxChars) ++ TRUNC_MARKER
      else joinNl (buildLines (d :: ds)) := rfl

/-! Claim theorems. -/

/-- Claim C3: for the empty document list, `_format_reviews_for_prompt`
returns exactly the fixed no-match sentinel string, for every value of
`max_chars`. -/
theorem C3_empty_docs_sentinel (maxChars : Nat) :
    format_reviews_for_prompt [] maxChars =
      "No matching reviews were found for this question.".data := rfl

/-- Claim C9: the formatter's output length is bounded for every input:
it is the sentinel's length for the empty list, and at most
`max_chars` plus the truncation marker's length otherwise. -/
theorem C9_output_length_bounded (docs : List PromptElem) (maxChars : Nat) :
    (docs = [] →
      (format_reviews_for_prompt docs maxChars).length = NO_MATCH_SENTINEL.length) ∧
    (docs ≠ [] →
      (format_reviews_for_prompt docs maxChars).length ≤
        maxChars + TRUNC_MARKER.length) := by
  constructor
  · rintro rfl
    rfl
  · intro hne
    cases docs with
    | nil => exact absurd rfl hne
    | cons d ds =>
      rw [format_cons]
      split
      · rw [List.length_append]
        have h1 : (pyRstrip ((joinNl (buildLines (d :: ds))).take maxChars)).length ≤ maxChars :=
          Nat.le_trans (length_pyRstrip_le _) (List.length_take_le _ _)
        omega
      · next hle =>
        have := Nat.le_of_not_lt hle
        omega

/-- Witness for claim C9 at a concrete one-document input. -/
theorem C9_witness :
    (format_reviews_for_prompt [.doc ['a']] 0).length ≤ 0 + TRUNC_MARKER.length :=
  (C9_output_length_bounded [.doc ['a']] 0).2 (by decide)

/-- Claim C5 (amended): for content of at most 400 characters, the
snippet is the content with leading and trailing whitespace stripped and
each remaining newline replaced by a space. -/
theorem C5_short_snippet (content : Str) (hshort : content.length ≤ 400) :
    mkSnippet content = replaceNl (pyStrip content) := by
  have h : ¬ 400 < (cleanContent content).length := by
    have := length_cleanContent_le content
    omega
  rw [mkSnippet, if_neg h]
  rfl

/-- Witness for claim C5 at a concrete two-character input. -/
theorem C5_witness :
    ([' ', 'a'] : Str).length ≤ 400 ∧
    mkSnippet [' ', 'a'] = replaceNl (pyStrip [' ', 'a']) :=
  ⟨by decide, C5_short_snippet [' ', 'a'] (by decide)⟩

/-- Counterexample to claim C5 as stated: for the two-character content
`" a"` the snippet is not the content with newlines replaced by spaces —
the leading space is also stripped. -/
theorem C5_cex :
    ([' ', 'a'] : Str).length ≤ 400 ∧ mkSnippet [' ', 'a'] ≠ replaceNl [' ', 'a'] := by
  decide

/-- Claim C2 (amended): when the stripped, newline-collapsed content
exceeds 400 characters, the snippet is the right-stripped 400-character
cut followed by the ellipsis: it ends with the ellipsis, its length is at
most 401, and it is exactly 401 whenever the 400-character cut ends in a
non-whitespace character. -/
theorem C2_snippet_truncation (content : Str)
    (hlong : 400 < (cleanContent content).length) :
    mkSnippet content = pyRstrip ((cleanContent content).take 400) ++ [ELLIPSIS] ∧
    (mkSnippet content).length ≤ 401 ∧
    (∃ t, mkSnippet content = t ++ [ELLIPSIS]) ∧
    ∀ t c, (cleanContent content).take 400 = t ++ [c] → isPySpace c = false →
      (mkSnippet content).length = 401 := by
  have he : mkSnippet content = pyRstrip ((cleanContent content).take 400) ++ [ELLIPSIS] := by
    rw [mkSnippet, if_pos hlong]
  refine ⟨he, ?_, ⟨_, he⟩, ?_⟩
  · rw [he, List.length_append]
    have h1 := Nat.le_trans (length_pyRstrip_le ((cleanContent content).take 400))
      (List.length_take_le 400 _)
    simp only [List.length_singleton]
    omega
  · intro t c htc hc
    rw [he, htc, pyRstrip_append_neg _ _ hc, List.length_append]
    have hmin : (t ++ [c]).length = 400 := by
      rw [← htc, List.length_take]
      exact min_eq_left (Nat.le_of_lt hlong)
    simp only [List.length_singleton]
    omega

set_option maxRecDepth 4000 in
/-- Witness for claim C2 at a 401-character content. -/
theorem C2_witness :
    400 < (cleanContent (List.replicate 401 'a')).length ∧
    (mkSnippet (List.replicate 401 'a')).length ≤ 401 :=
  ⟨by decide, (C2_snippet_truncation (List.replicate 401 'a') (by decide)).2.1⟩

set_option maxRecDepth 4000 in
/-- Counterexample to claim C2 as stated: a 401-character content whose
400-character cut ends in a space yields a 400-character snippet, not a
401-character one, because the code right-strips the cut before
appending the ellipsis. -/
theorem C2_cex :
    400 < (List.replicate 399 'a' ++ [' ', 'b'] : Str).length ∧
    (mkSnippet (List.replicate 399 'a' ++ [' ', 'b'])).length ≠ 401 := by
  decide

/-- Claim C1 (amended): when the joined line block exceeds `max_chars`,
the formatter returns the right-stripped `max_chars`-character cut
followed by the truncation marker: the output ends with the marker, its
length is at most `max_chars` plus the marker's length, and it is
exactly that whenever the cut ends in a non-whitespace character. -/
theorem C1_truncation_bound (docs : List PromptElem) (maxChars : Nat)
    (hne : docs ≠ [])
    (hover : maxChars < (joinNl (buildLines docs)).length) :
    format_reviews_for_prompt docs maxChars =
      pyRstrip ((joinNl (buildLines docs)).take maxChars) ++ TRUNC_MARKER ∧
    (format_reviews_for_prompt docs maxChars).length ≤ maxChars + TRUNC_MARKER.length ∧
    (∃ t, format_reviews_for_prompt docs maxChars = t ++ TRUNC_MARKER) ∧
    ∀ t c, (joinNl (buildLines docs)).take maxChars = t ++ [c] → isPySpace c = false →
      (format_reviews_for_prompt docs maxChars).length = maxChars + TRUNC_MARKER.length := by
  cases docs with
  | nil => exact absurd rfl hne
  | cons d ds =>
    have he : format_reviews_for_prompt (d :: ds) maxChars =
        pyRstrip ((joinNl (buildLines (d :: ds))).take maxChars) ++ TRUNC_MARKER := by
      rw [format_cons, if_pos hover]
    refine ⟨he, ?_, ⟨_, he⟩, ?_⟩
    · rw [he, List.length_append]
      have h1 := Nat.le_trans (length_pyRstrip_le _)
        (List.length_take_le maxChars (joinNl (buildLines (d :: ds))))
      omega
    · intro t c htc hc
      rw [he, htc, pyRstrip_append_neg _ _ hc, List.length_append]
      have hmin : (t ++ [c]).length = maxChars := by
        rw [← htc, List.length_take]
        exact min_eq_left (Nat.le_of_lt hover)
      omega

/-- Witness for claim C1 at a concrete overlong input. -/
theorem C1_witness :
    (format_reviews_for_prompt [.doc ['a', 'b']] 5).length ≤ 5 + TRUNC_MARKER.length :=
  (C1_truncation_bound [.doc ['a', 'b']] 5 (by decide) (by decide)).2.1


/-- Claim C4 (amended): for every non-empty document list whose joined
line block fits within `max_chars`, the output splits at newlines into
exactly `len(docs)` lines, and the `i`-th line (1-indexed) is the header
`"- Review #i: "` followed by that document's snippet. -/
theorem C4_line_structure (docs : List PromptElem) (maxChars : Nat)
    (hne : docs ≠ [])
    (hfit : (joinNl (buildLines docs)).length ≤ maxChars) :
    (splitOnNl (format_reviews_for_prompt docs maxChars)).length = docs.length ∧
    ∀ i, i < docs.length →
      (splitOnNl (format_reviews_for_prompt docs maxChars)).getD i [] =
        lineHeader (i + 1) ++ mkSnippet (elemContent (docs.getD i (.doc []))) := by
  cases docs with
  | nil => exact absurd rfl hne
  | cons d ds =>
    have hout : format_reviews_for_prompt (d :: ds) maxChars =
        joinNl (buildLines (d :: ds)) := by
      rw [format_cons, if_neg (Nat.not_lt.2 hfit)]
    have hsplit : splitOnNl (joinNl (buildLines (d :: ds))) = buildLines (d :: ds) := by
      apply splitOnNl_joinNl
      · rw [buildLines, buildLinesFrom]
        exact List.cons_ne_nil _ _
      · exact fun l hl => nl_not_mem_buildLinesFrom 1 (d :: ds) l hl
    constructor
    · rw [hout, hsplit, buildLines]
      exact length_buildLinesFrom 1 (d :: ds)
    · intro i hi
      rw [hout, hsplit, buildLines, buildLinesFrom_getD 1 i (d :: ds) hi,
        Nat.add_comm 1 i]
      rfl

/-- Witness for claim C4 at a concrete one-document input. -/
theorem C4_witness :
    (splitOnNl (format_reviews_for_prompt [.doc ['h', 'i']] 1800)).length = 1 :=
  (C4_line_structure [.doc ['h', 'i']] 1800 (by decide) (by decide)).1

/-- Claim C10: an element without a `page_content` attribute does not
make the formatter fail: its line is built from the element's string
representation. -/
theorem C10_str_fallback (docs : List PromptElem) (i : Nat) (s : Str)
    (hi : i < docs.length) (h : docs.getD i (.doc []) = .other s) :
    (buildLines docs).getD i [] = lineHeader (i + 1) ++ mkSnippet s := by
  rw [buildLines, buildLinesFrom_getD 1 i docs hi, h, Nat.add_comm 1 i]
  rfl

/-- Witness for claim C10 at a concrete input. -/
theorem C10_witness :
    (buildLines [.other ['x']]).getD 0 [] = lineHeader 1 ++ mkSnippet ['x'] :=
  C10_str_fallback [.other ['x']] 0 ['x'] (by decide) (by decide)

/-! Helper lemmas for the document builder of src/vector.py. -/

theorem buildDocumentsFrom_lengths :
    ∀ (k : Nat) (rs : List Record),
      (buildDocumentsFrom k rs).1.length = rs.length ∧
      (buildDocumentsFrom k rs).2.length = rs.length
  | _, [] => ⟨rfl, rfl⟩
  | k, r :: rs => by
    have ih := buildDocumentsFrom_lengths (k + 1) rs
    show ((recordToDoc k r :: (buildDocumentsFrom (k + 1) rs).1).length = _ ∧
      (natStr k :: (buildDocumentsFrom (k + 1) rs).2).length = _)
    simp [ih.1, ih.2]

theorem buildDocumentsFrom_getD_fst :
    ∀ (k i : Nat) (rs : List Record), i < rs.length →
      (buildDocumentsFrom k rs).1.getD i emptyDocument =
        recordToDoc (k + i) (rs.getD i emptyRecord)
  | _, _, [], h => absurd h (by simp)
  | k, 0, r :: rs, _ => by
    show (recordToDoc k r :: (buildDocumentsFrom (k + 1) rs).1).getD 0 emptyDocument = _
    rw [List.getD_cons_zero, List.getD_cons_zero, Nat.add_zero]
  | k, i + 1, r :: rs, h => by
    show (recordToDoc k r :: (buildDocumentsFrom (k + 1) rs).1).getD (i + 1) emptyDocument = _
    rw [List.getD_cons_succ, List.getD_cons_succ,
      buildDocumentsFrom_getD_fst (k + 1) i rs (Nat.lt_of_succ_lt_succ h)]
    have : k + 1 + i = k + (i + 1) := by omega
    rw [this]

theorem buildDocumentsFrom_getD_snd :
    ∀ (k i : Nat) (rs : List Record), i < rs.length →
      (buildDocumentsFrom k rs).2.getD i [] = natStr (k + i)
  | _, _, [], h => absurd h (by simp)
  | k, 0, r :: rs, _ => by
    show (natStr k :: (buildDocumentsFrom (k + 1) rs).2).getD 0 [] = _
    rw [List.getD_cons_zero, Nat.add_zero]
  | k, i + 1, r :: rs, h => by
    show (natStr k :: (buildDocumentsFrom (k + 1) rs).2).getD (i + 1) [] = _
    rw [List.getD_cons_succ,
      buildDocumentsFrom_getD_snd (k + 1) i rs (Nat.lt_of_succ_lt_succ h)]
    have : k + 1 + i = k + (i + 1) := by omega
    rw [this]

/-- Claim C6: `_build_documents` builds, for each record in input order,
a document whose content is `"{title} {body}".strip()`, whose metadata is
`{rating, date, source_row: i}` and whose id is the decimal string of the
row index, with the document and id lists aligned index by index. -/
theorem C6_build_documents (records : List Record) :
    (build_documents records).1.length = records.length ∧
    (build_documents records).2.length = records.length ∧
    ∀ i, i < records.length →
      (build_documents records).1.getD i emptyDocument =
        { page_content :=
            pyStrip ((records.getD i emptyRecord).title ++
              ' ' :: (records.getD i emptyRecord).review),
          metadata :=
            { rating := (records.getD i emptyRecord).rating,
              date := (records.getD i emptyRecord).date,
              source_row := i } } ∧
      (build_documents records).2.getD i [] = natStr i := by
  refine ⟨(buildDocumentsFrom_lengths 0 records).1,
    (buildDocumentsFrom_lengths 0 records).2, fun i hi => ⟨?_, ?_⟩⟩
  · rw [build_documents, buildDocumentsFrom_getD_fst 0 i records hi, Nat.zero_add]
    rfl
  · rw [build_documents, buildDocumentsFrom_getD_snd 0 i records hi, Nat.zero_add]

/-- Witness for claim C6 at a concrete one-record input. -/
theorem C6_witness :
    (build_documents [{ title := "T".data, review := "B".data,
                        rating := "5".data, date := "d".data }]).1.getD 0 emptyDocument =
      { page_content := "T B".data,
        metadata := { rating := "5".data, date := "d".data, source_row := 0 } } := by
  have h := (C6_build_documents [{ title := "T".data, review := "B".data,
                                   rating := "5".data, date := "d".data }]).2.2 0 (by decide)
  rw [h.1]
  decide

/-! Helper lemmas for the tabular loader of src/vector.py. -/

theorem mem_missingCols (cols : List Str) (c : Str) :
    c ∈ missingCols cols ↔ c ∈ requiredColsSorted ∧ c ∉ cols := by
  simp [missingCols, List.mem_filter]

theorem missingCols_eq_nil (cols : List Str) :
    missingCols cols = [] ↔ ∀ c ∈ requiredColsSorted, c ∈ cols := by
  simp [missingCols, List.filter_eq_nil_iff]

/-- Claim C7: loading fails with the file-not-found error exactly when
the source is absent; it fails with a schema error exactly when the file
is present and some required column is absent, and that error carries
precisely the missing required columns; on success, missing `Title` and
`Review` cells are replaced by the empty string. -/
theorem C7_load_dataframe (src : CsvSource) :
    (load_dataframe src = .error .fileNotFound ↔ src.present = false) ∧
    ((∃ m, load_dataframe src = .error (.missingColumns m)) ↔
      src.present = true ∧ ¬ ∀ c ∈ requiredColsSorted, c ∈ src.columns) ∧
    (∀ m, load_dataframe src = .error (.missingColumns m) →
      ∀ c, c ∈ m ↔ c ∈ requiredColsSorted ∧ c ∉ src.columns) ∧
    ∀ rows, load_dataframe src = .ok rows → rows = src.rows.map fillnaRow := by
  by_cases hp : src.present = true
  · have hnp : ¬ src.present = false := by simp [hp]
    by_cases hm : missingCols src.columns = []
    · have hload : load_dataframe src = .ok (src.rows.map fillnaRow) := by
        rw [load_dataframe, if_neg hnp, if_pos hm]
      refine ⟨⟨fun h => ?_, fun h => absurd h hnp⟩,
        ⟨fun ⟨m, h⟩ => ?_, fun ⟨_, h⟩ => absurd ((missingCols_eq_nil _).1 hm) h⟩,
        fun m h => ?_, fun rows h => ?_⟩
      · rw [hload] at h
        exact absurd h (by simp)
      · rw [hload] at h
        exact absurd h (by simp)
      · rw [hload] at h
        exact absurd h (by simp)
      · rw [hload] at h
        exact (Except.ok.inj h).symm
    · have hload : load_dataframe src =
          .error (.missingColumns (missingCols src.columns)) := by
        rw [load_dataframe, if_neg hnp, if_neg hm]
      refine ⟨⟨fun h => ?_, fun h => absurd h hnp⟩,
        ⟨fun _ => ⟨hp, fun hall => hm ((missingCols_eq_nil _).2 hall)⟩,
         fun _ => ⟨missingCols src.columns, hload⟩⟩,
        fun m h => ?_, fun rows h => ?_⟩
      · rw [hload] at h
        exact absurd (Except.error.inj h) (by simp)
      · rw [hload] at h
        have hme : missingCols src.columns = m :=
          LoadError.missingColumns.inj (Except.error.inj h)
        intro c
        rw [← hme]
        exact mem_missingCols src.columns c
      · rw [hload] at h
        exact absurd h (by simp)
  · have hp' : src.present = false := by
      revert hp
      cases src.present <;> simp
    have hload : load_dataframe src = .error .fileNotFound := by
      rw [load_dataframe, if_pos hp']
    refine ⟨⟨fun _ => hp', fun _ => hload⟩,
      ⟨fun ⟨m, h⟩ => ?_, fun ⟨h, _⟩ => absurd h hp⟩, fun m h => ?_, fun rows h => ?_⟩
    · rw [hload] at h
      exact absurd (Except.error.inj h) (by simp)
    · rw [hload] at h
      exact absurd (Except.error.inj h) (by simp)
    · rw [hload] at h
      exact absurd h (by simp)

/-- Witness for claim C7 at concrete sources: an absent file yields the
file-not-found error, a present file missing the `Review` and `Title`
columns yields a schema error listing exactly those two, and a complete
file loads its rows with a missing `Title` cell replaced by `""`. -/
theorem C7_witness :
    load_dataframe srcAbsent = .error .fileNotFound ∧
    load_dataframe srcMissingTwo =
      .error (.missingColumns ["Review".data, "Title".data]) ∧
    load_dataframe srcComplete =
      .ok [{ title := [], review := "B".data, rating := "5".data, date := "d".data }] :=
  ⟨(C7_load_dataframe srcAbsent).1.2 rfl, rfl, rfl⟩

/-- Claim C8: indexing is skipped exactly when the persistent store
location already exists, and a second run of the indexer against the
store left by a first run changes nothing — in particular the stored
entry count is unchanged. -/
theorem C8_idempotent_guard (s : StoreState) (docs docs' : List Document) :
    (s.dirPresent = true →
      should_add_documents s = false ∧
      runIndexer s docs = { s with dirPresent := true }) ∧
    runIndexer (runIndexer s docs) docs' = runIndexer s docs ∧
    (runIndexer (runIndexer s docs) docs').count = (runIndexer s docs).count := by
  rcases s with ⟨b, n⟩
  refine ⟨fun h => ?_, ?_, ?_⟩
  · cases h
    exact ⟨rfl, rfl⟩
  · cases b <;> simp [runIndexer, should_add_documents]
  · cases b <;> simp [runIndexer, should_add_documents]

/-- Witness for claim C8 at a concrete pre-existing store. -/
theorem C8_witness :
    should_add_documents { dirPresent := true, count := 5 } = false ∧
    (runIndexer { dirPresent := true, count := 5 } [emptyDocument]).count = 5 := by
  have h := (C8_idempotent_guard { dirPresent := true, count := 5 }
    [emptyDocument] []).1 rfl
  exact ⟨h.1, by rw [h.2]⟩

end LocalAIAgent
